import Mathlib

/-!
Verification of `fabfile.py` (sphinx-bootstrap-theme release automation).

The Python source is shallowly embedded: each function is translated to a
pure Lean function, with the external world (shell command outputs, the
filesystem, the remote download list, HTTP transport, JSON decoding) passed
in explicitly as parameters.  Side effects of the orchestrator tasks are
recorded as explicit event traces.
-/

namespace Fab

/-! ### A small model of Python values (for the `tag` parameter) -/

/-- A Python value as far as the fabfile's `tag` parameter is concerned:
a bool, an int or a string. -/
inductive PyVal where
  | bool (b : Bool)
  | int (n : Int)
  | str (s : String)
deriving DecidableEq

/-- Python truthiness: `False`, `0` and `""` are falsy. -/
def pyTruthy : PyVal → Bool
  | PyVal.bool b => b
  | PyVal.int n => n ≠ 0
  | PyVal.str s => s ≠ ""

/-- Python `==` on the modelled values: bools compare equal to the ints 1/0
(`True == 1`), strings only to equal strings. -/
def pyEq : PyVal → PyVal → Bool
  | PyVal.bool a, PyVal.bool b => a == b
  | PyVal.bool a, PyVal.int n => (if a then (1 : Int) else 0) == n
  | PyVal.int n, PyVal.bool a => n == (if a then (1 : Int) else 0)
  | PyVal.int m, PyVal.int n => m == n
  | PyVal.str a, PyVal.str b => a == b
  | _, _ => false

/-- Python `"%s" % v` rendering of an optional string: `None` renders as
the four characters `None`. -/
def pyStrOpt : Option String → String
  | none => "None"
  | some s => s

/-- The characters stripped by Python's `str.strip()`. -/
def isPySpace (c : Char) : Bool :=
  c = ' ' || c = '\t' || c = '\n' || c = '\r' || c = '\x0b' || c = '\x0c'

/-- Python `str.strip()`: drop leading and trailing whitespace. -/
def pyStrip (s : String) : String :=
  String.mk (((s.data.dropWhile isPySpace).reverse.dropWhile isPySpace).reverse)

/-! ### A small JSON value type (shape of decoded API responses) -/

/-- JSON values, the result type of `json.loads`. -/
inductive Json where
  | null
  | bool (b : Bool)
  | num (n : Int)
  | str (s : String)
  | arr (xs : List Json)
  | obj (kvs : List (String × Json))

/-! ### `base64.encodestring` (Python 2), used for HTTP Basic auth -/

/-- The base64 alphabet. -/
def b64alphabet : List Char :=
  "ABCDEFGHIJKLMNOPQRSTUVWXYZabcdefghijklmnopqrstuvwxyz0123456789+/".toList

/-- The base64 character for a 6-bit value. -/
def b64char (n : Nat) : Char := b64alphabet.getD n '?'

/-- Base64-encode a byte list (RFC 4648, with `=` padding). -/
def b64encodeBytes : List Nat → List Char
  | [] => []
  | [a] => [b64char (a / 4), b64char (a % 4 * 16), '=', '=']
  | [a, b] => [b64char (a / 4), b64char (a % 4 * 16 + b / 16), b64char (b % 16 * 4), '=']
  | a :: b :: c :: rest =>
      [b64char (a / 4), b64char (a % 4 * 16 + b / 16),
       b64char (b % 16 * 4 + c / 64), b64char (c % 64)] ++ b64encodeBytes rest

/-- UTF-8 encoding of a single character, as byte values. -/
def utf8EncodeCharNat (c : Char) : List Nat :=
  let n := c.toNat
  if n < 128 then [n]
  else if n < 2048 then [192 + n / 64, 128 + n % 64]
  else if n < 65536 then [224 + n / 4096, 128 + n / 64 % 64, 128 + n % 64]
  else [240 + n / 262144, 128 + n / 4096 % 64, 128 + n / 64 % 64, 128 + n % 64]

/-- The UTF-8 bytes of a string. -/
def utf8Bytes (s : String) : List Nat := (s.data.map utf8EncodeCharNat).flatten

/-- Split a byte list into chunks of 57 bytes (the line size used by
Python 2's `base64.encodestring`). -/
def chunk57 (l : List Nat) : List (List Nat) :=
  match l with
  | [] => []
  | x :: xs => ((x :: xs).take 57) :: chunk57 ((x :: xs).drop 57)
termination_by l.length
decreasing_by
  simp only [List.length_drop, List.length_cons]
  omega

/-- Python 2 `base64.encodestring`: encode 57-byte input chunks, each
followed by a newline. -/
def encodestring (s : String) : String :=
  String.mk (((chunk57 (utf8Bytes s)).map (fun c => b64encodeBytes c ++ ['\n'])).flatten)

/-- `base64.encodestring(s)[:-1]`: the auth string built in `api_op`
(the final newline is dropped). -/
def encodestringTrim (s : String) : String := String.mk (encodestring s).data.dropLast

/-! ### `GitHub.config` -/

/-- `GitHub.config(key)`: run `git config github.<key>` through the shell
runner, strip the output, and return it when non-empty (`None` otherwise).
`runner` maps a shell command to its captured stdout. -/
def config (runner : String → String) (key : String) : Option String :=
  let val := pyStrip (runner ("git config github." ++ key))
  if val = "" then none else some val

/-! ### `GitHub.api_op` -/

/-- An HTTP request as assembled by `api_op`. -/
structure HttpReq where
  url : String
  method : String
  headers : List (String × String)
  data : Option String

/-- `GitHub.__init__` sets `self.api_base` to this constant. -/
def api_base : String := "https://api.github.com"

/-- `GitHub.api_op(path, method, headers, data)`: build the URL from
`api_base` and `path` (stripping leading slashes; an empty path means the
base itself), attach the caller's headers and then an `Authorization`
header carrying Basic credentials, send the request, and JSON-decode a
non-empty response body (an empty body yields an empty mapping).
`loads` stands for `json.loads` and `transport` for `urllib2.urlopen`;
the issued request is returned next to the decoded result. -/
def api_op (loads : String → Json) (transport : HttpReq → String)
    (user password : Option String)
    (path : String) (method : String) (headers : List (String × String))
    (data : Option String) : HttpReq × Json :=
  let url_path := if path = "" then api_base
    else api_base ++ "/" ++ String.mk (path.data.dropWhile (fun c => c = '/'))
  let auth_str := encodestringTrim (pyStrOpt user ++ ":" ++ pyStrOpt password)
  let req : HttpReq :=
    { url := url_path
      method := method
      headers := headers ++ [("Authorization", "Basic " ++ auth_str)]
      data := data }
  let results := transport req
  (req, if results = "" then Json.obj [] else loads results)

/-! ### `get_suffix` -/

/-- The shell command chosen by `get_suffix`: `git describe --always --tag`
when `tag in (True, "True")`, else `git rev-parse HEAD`. -/
def suffix_cmd (tag : PyVal) : String :=
  if pyEq tag (PyVal.bool true) || pyEq tag (PyVal.str "True") then
    "git describe --always --tag"
  else "git rev-parse HEAD"

/-- `get_suffix(tag)`: run the chosen git command and strip the output.
`gitOut` maps a shell command to its captured stdout. -/
def get_suffix (gitOut : String → String) (tag : PyVal) : String :=
  pyStrip (gitOut (suffix_cmd tag))

/-! ### `_dist_wrapper` (PyPI packaging temp files)

The filesystem is modelled as `String → Bool` (does the path exist).  The
inner action may change the filesystem and may fail; `local` aborting on a
failed `cp` is modelled by stopping the copy loop, while the cleanup's
`rm -f` never fails. -/

/-- `SDIST_RST_FILES`. -/
def SDIST_RST_FILES : List String := ["README.rst", "HISTORY.rst"]

/-- The root part of `os.path.splitext` (everything before the last dot),
adequate for file names that do not start with a dot. -/
def splitextRoot (s : String) : String :=
  match s.data.reverse.dropWhile (fun c => !(c = '.')) with
  | [] => s
  | _ :: rest => String.mk rest.reverse

/-- `SDIST_TXT_FILES = [os.path.splitext(x)[0] + ".txt" for x in SDIST_RST_FILES]`. -/
def SDIST_TXT_FILES : List String := SDIST_RST_FILES.map (fun x => splitextRoot x ++ ".txt")

/-- Set the existence of one path in the filesystem model. -/
def setFile (fs : String → Bool) (p : String) (v : Bool) : String → Bool :=
  fun q => if q = p then v else fs q

/-- `rm -f p`: the path is gone afterwards; a missing file is not an error
(the function is total). -/
def rmF (fs : String → Bool) (p : String) : String → Bool := setFile fs p false

/-- The copy loop of `_dist_wrapper`: `cp rst txt` for each pair, stopping
(as `local` aborts) at the first missing source.  Returns the filesystem
after the executed copies and whether the loop failed. -/
def cpAll (fs : String → Bool) : (String → Bool) × Bool :=
  (SDIST_RST_FILES.zip SDIST_TXT_FILES).foldl
    (fun acc pr =>
      if acc.2 then acc
      else if acc.1 pr.1 then (setFile acc.1 pr.2 true, false)
      else (acc.1, true))
    (fs, false)

/-- The `finally` block of `_dist_wrapper`: `rm -f` every temp `.txt` file. -/
def cleanupTxt (fs : String → Bool) : String → Bool :=
  SDIST_TXT_FILES.foldl rmF fs

/-- How a `_dist_wrapper` run ended. -/
inductive Outcome (ε : Type) where
  | ok
  | err (e : ε)
  | copyFailed

/-- `_dist_wrapper` around an inner `action`: copy the `.rst` files to
`.txt`, run the action (which returns its final filesystem and an optional
error), and in every case — action succeeded, action failed, or the copy
itself failed — run the cleanup afterwards (`try`/`finally`). -/
def distWrapper {ε : Type} (action : (String → Bool) → (String → Bool) × Option ε)
    (fs : String → Bool) : Outcome ε × (String → Bool) :=
  let c := cpAll fs
  if c.2 then (Outcome.copyFailed, cleanupTxt c.1)
  else
    let a := action c.1
    match a.2 with
    | none => (Outcome.ok, cleanupTxt a.1)
    | some e => (Outcome.err e, cleanupTxt a.1)

/-! ### `GitHub.downloads_put` and the `gh_upload` orchestrator -/

/-- `os.path.basename`: the part after the last slash (the running
segment is reset at every slash). -/
def basename (s : String) : String :=
  String.mk (s.data.foldl (fun acc c => if c = '/' then [] else acc ++ [c]) [])

/-- One record of the remote download list, as used by `gh_upload`
(lookup by `name`) and `downloads_del` (URL from `id`). -/
structure DL where
  name : String
  id : String
deriving DecidableEq

/-- `dict((x['name'], x) for x in downloads)` followed by `.get(n)`:
later records overwrite earlier ones with the same name. -/
def dlLookup (ds : List DL) (n : String) : Option DL :=
  ds.foldl (fun acc d => if d.name = n then some d else acc) none

/-- Observable events of a `gh_upload` run: shell commands, GitHub API
calls (list/delete/create), the S3 form upload (the shelled `curl`),
printed messages and `abort`. -/
inductive Ev where
  | shell (cmd : String)
  | httpGet (path : String)
  | httpDelete (path : String)
  | httpPost (path : String) (name : String) (size : Nat) (desc : String)
  | s3Upload (filePath : String)
  | msg (s : String)
  | abort (s : String)
deriving DecidableEq

/-- The downloads collection path used by `downloads`, `downloads_del`
and `downloads_put`: `repos/{user}/sphinx-bootstrap-theme/downloads`
(an absent user renders as `None`, as Python's `%s` does). -/
def downloads_path (user : Option String) : String :=
  "repos/" ++ pyStrOpt user ++ "/sphinx-bootstrap-theme/downloads"

/-- The create (POST) request body assembled by `downloads_put`. -/
structure PutRequest where
  path : String
  name : String
  size : Nat
  description : String
deriving DecidableEq

/-- The POST request of `downloads_put(file_name, suffix, desc)`:
a falsy `desc` (absent or empty) is replaced by the default description,
the name is the basename of the file and the size its on-disk size. -/
def put_request (user : Option String) (fileSize : String → Nat)
    (file_name suffix : String) (desc : Option String) : PutRequest :=
  let d := match desc with
    | none => "Pre-packaged sphinx theme for " ++ suffix ++ "."
    | some s => if s = "" then "Pre-packaged sphinx theme for " ++ suffix ++ "." else s
  { path := downloads_path user
    name := basename file_name
    size := fileSize file_name
    description := d }

/-- `dict.update` with a single key: bind `k` to `v`, leave the rest. -/
def dictUpdate (d : String → Option Json) (k : String) (v : Json) :
    String → Option Json :=
  fun q => if q = k then some v else d q

/-- `GitHub.downloads_put(file_name, suffix, desc)`: POST the create
request, decode its response (`createResp`), attach `file_path`, then
upload the file itself via the shelled `curl` form post.  Returns the
event trace and the augmented metadata mapping. -/
def downloads_put (user : Option String) (fileSize : String → Nat)
    (createResp : PutRequest → String → Option Json)
    (file_name suffix : String) (desc : Option String) :
    List Ev × (String → Option Json) :=
  let req := put_request user fileSize file_name suffix desc
  let meta := dictUpdate (createResp req) "file_path" (Json.str file_name)
  ([Ev.httpPost req.path req.name req.size req.description, Ev.s3Upload file_name], meta)

/-- The external world of a `gh_upload` run: captured shell outputs, the
local filesystem, local file sizes, the decoded remote download list, and
the decoded responses to create requests. -/
structure Env where
  gitOut : String → String
  fsExists : String → Bool
  fileSize : String → Nat
  remote : List DL
  createResp : PutRequest → String → Option Json

/-- The `gh_upload(tag)` task: compute the suffix, check the two local zip
files (aborting when one is missing), construct `GitHub()` (three config
reads), fetch the download list, short-circuit when the suffixed name is
already present, delete a remote `bootstrap.zip` when present, then upload
the base and the suffixed zip.  The run is returned as its event trace. -/
def gh_upload (env : Env) (tag : PyVal) : List Ev :=
  let suffix := get_suffix env.gitOut tag
  let base_zip := "build/bootstrap.zip"
  let base_file := basename base_zip
  let suffix_zip := "build/bootstrap-" ++ suffix ++ ".zip"
  let suffix_file := basename suffix_zip
  let pre : List Ev := [Ev.shell (suffix_cmd tag)]
  if !(env.fsExists base_zip && env.fsExists suffix_zip) then
    pre ++ [Ev.abort "Did not find current zip files. Please create."]
  else
    let user := config env.gitOut "user"
    let ghEvs : List Ev := [Ev.shell "git config github.user",
      Ev.shell "git config github.password", Ev.shell "git config github.token"]
    let listEvs : List Ev := [Ev.httpGet (downloads_path user)]
    let dl_suffix := dlLookup env.remote suffix_file
    let dl_base := dlLookup env.remote base_file
    if dl_suffix.isSome then
      pre ++ ghEvs ++ listEvs ++ [Ev.msg "Found suffixed zip file already. Skipping"]
    else
      let delEvs : List Ev := match dl_base with
        | some d => [Ev.msg "Removing current base zip file.",
            Ev.httpDelete (downloads_path user ++ "/" ++ d.id)]
        | none => []
      pre ++ ghEvs ++ listEvs ++ delEvs
        ++ (downloads_put user env.fileSize env.createResp base_zip suffix none).1
        ++ (downloads_put user env.fileSize env.createResp suffix_zip suffix none).1

/-- The delete (DELETE) calls of a trace, in order. -/
def deleteCalls (t : List Ev) : List String :=
  t.filterMap fun e => match e with
    | Ev.httpDelete p => some p
    | _ => none

/-- The files sent to the storage endpoint by a trace, in order. -/
def uploadFiles (t : List Ev) : List String :=
  t.filterMap fun e => match e with
    | Ev.s3Upload f => some f
    | _ => none

/-- Is an event an HTTP/network operation (list, delete, create or upload)? -/
def isNet : Ev → Bool
  | Ev.httpGet _ => true
  | Ev.httpDelete _ => true
  | Ev.httpPost _ _ _ _ => true
  | Ev.s3Upload _ => true
  | _ => false

/-- The HTTP/network operations of a trace, in order. -/
def netOps (t : List Ev) : List Ev := t.filter isNet

/-! ### Concrete sample worlds (used to instantiate the theorems) -/

/-- A sample shell world: `git describe` answers `v1.0`, everything else
answers `deadbeef`. -/
def gitOutEx : String → String :=
  fun c => if c = "git describe --always --tag" then "v1.0" else "deadbeef"

/-- A sample shell world whose every captured output is ` bob\n`. -/
def runnerEx : String → String := fun _ => " bob\n"

/-- A sample JSON decoder. -/
def loadsEx : String → Json := fun s => Json.str s

/-- A sample transport whose every response body is empty. -/
def transportEx : HttpReq → String := fun _ => ""

/-- A sample create-response: only the key `id` is present. -/
def respEx : PutRequest → String → Option Json :=
  fun _ k => if k = "id" then some (Json.num 7) else none

/-- A world where both local zips exist and the remote list already holds
the suffixed file (`get_suffix` yields `abc` for every command). -/
def envC1 : Env :=
  { gitOut := fun _ => "abc"
    fsExists := fun _ => true
    fileSize := fun _ => 4
    remote := [⟨"bootstrap-abc.zip", "9"⟩]
    createResp := respEx }

/-- A world where both local zips exist and the remote list holds only the
base `bootstrap.zip`. -/
def envC2 : Env :=
  { gitOut := fun _ => "abc"
    fsExists := fun _ => true
    fileSize := fun _ => 4
    remote := [⟨"bootstrap.zip", "5"⟩]
    createResp := respEx }

/-- A world where no local file exists at all. -/
def envC3 : Env :=
  { gitOut := fun _ => "abc"
    fsExists := fun _ => false
    fileSize := fun _ => 4
    remote := []
    createResp := respEx }

/-! ## Helper lemmas about the name-indexed download dictionary -/

/-- Folding the name-indexing step over records none of which match leaves
the accumulator untouched. -/
theorem dlFold_none (n : String) (ds : List DL) (acc : Option DL)
    (h : ∀ d ∈ ds, d.name ≠ n) :
    ds.foldl (fun a d => if d.name = n then some d else a) acc = acc := by
  induction ds generalizing acc with
  | nil => rfl
  | cons d ds ih =>
    simp only [List.foldl_cons]
    rw [if_neg (h d (List.mem_cons_self d ds))]
    exact ih acc fun x hx => h x (List.mem_cons_of_mem d hx)

/-- A name matched by no record is absent from the dictionary. -/
theorem dlLookup_none (n : String) (ds : List DL)
    (h : ∀ d ∈ ds, d.name ≠ n) : dlLookup ds n = none :=
  dlFold_none n ds none h

/-- The fold yields a record as soon as the accumulator holds one or some
record matches. -/
theorem dlFold_isSome (n : String) (ds : List DL) (acc : Option DL)
    (h : acc.isSome = true ∨ ∃ d ∈ ds, d.name = n) :
    (ds.foldl (fun a d => if d.name = n then some d else a) acc).isSome = true := by
  induction ds generalizing acc with
  | nil =>
    rcases h with h | ⟨d, hd, _⟩
    · exact h
    · simp at hd
  | cons d ds ih =>
    simp only [List.foldl_cons]
    by_cases hd : d.name = n
    · exact ih _ (Or.inl (by rw [if_pos hd]; rfl))
    · refine ih _ ?_
      rcases h with h | ⟨e, he, hen⟩
      · exact Or.inl (by rw [if_neg hd]; exact h)
      · rcases List.mem_cons.mp he with rfl | hmem
        · exact absurd hen hd
        · exact Or.inr ⟨e, hmem, hen⟩

/-- A name matched by some record is present in the dictionary. -/
theorem dlLookup_isSome (n : String) (ds : List DL)
    (h : ∃ d ∈ ds, d.name = n) : (dlLookup ds n).isSome = true :=
  dlFold_isSome n ds none (Or.inr h)

/-- When some record matches, the fold returns a matching record of the
list (the last one, by the overwrite discipline of the dict builder). -/
theorem dlFold_find (n : String) (ds : List DL) (acc : Option DL)
    (h : ∃ d ∈ ds, d.name = n) :
    ∃ e ∈ ds, e.name = n ∧
      ds.foldl (fun a d => if d.name = n then some d else a) acc = some e := by
  induction ds generalizing acc with
  | nil => simp at h
  | cons d ds ih =>
    simp only [List.foldl_cons]
    by_cases hds : ∃ e ∈ ds, e.name = n
    · obtain ⟨e, he, hen, heq⟩ := ih _ hds
      exact ⟨e, List.mem_cons_of_mem d he, hen, heq⟩
    · rcases h with ⟨e, he, hen⟩
      rcases List.mem_cons.mp he with rfl | hmem
      · refine ⟨e, List.mem_cons_self e ds, hen, ?_⟩
        rw [if_pos hen, dlFold_none n ds (some e) fun x hx hxn => hds ⟨x, hx, hxn⟩]
      · exact absurd ⟨e, hmem, hen⟩ hds

/-- Looking up a name matched by some record returns a matching record. -/
theorem dlLookup_find (n : String) (ds : List DL)
    (h : ∃ d ∈ ds, d.name = n) :
    ∃ e ∈ ds, e.name = n ∧ dlLookup ds n = some e :=
  dlFold_find n ds none h

/-- The computed names of the temporary distribution text files. -/
theorem sdist_txt_files_eq : SDIST_TXT_FILES = ["README.txt", "HISTORY.txt"] := by decide

/-- The cleanup fold removes `README.txt`, whatever the filesystem. -/
theorem cleanupTxt_readme (f : String → Bool) : cleanupTxt f "README.txt" = false := by
  simp [cleanupTxt, sdist_txt_files_eq, rmF, setFile]

/-- The cleanup fold removes `HISTORY.txt`, whatever the filesystem. -/
theorem cleanupTxt_history (f : String → Bool) : cleanupTxt f "HISTORY.txt" = false := by
  simp [cleanupTxt, sdist_txt_files_eq, rmF, setFile]

/-- `basename` of the base zip path. -/
theorem basename_base : basename "build/bootstrap.zip" = "bootstrap.zip" := by decide

/-! ## Claim theorems -/

/-- C4 (counterexample): the string `"yes"` is truthy in Python, yet
`get_suffix` runs `git rev-parse HEAD` for it, not the describe query —
the code tests membership in `(True, "True")`, not truthiness, so the
claim "if tag is truthy, get_suffix returns the trimmed describe output"
fails at `tag = "yes"`. -/
theorem get_suffix_truthy_ce :
    pyTruthy (PyVal.str "yes") = true ∧
    get_suffix gitOutEx (PyVal.str "yes") ≠
      pyStrip (gitOutEx "git describe --always --tag") := by
  decide

/-- C4 (amended): `get_suffix(tag)` returns the whitespace-trimmed output
of `git describe --always --tag` exactly when `tag` compares Python-equal
to `True` or to the string `"True"`; for every other value — truthy or
not — it returns the whitespace-trimmed output of `git rev-parse HEAD`. -/
theorem get_suffix_spec (gitOut : String → String) (tag : PyVal) :
    ((pyEq tag (PyVal.bool true) || pyEq tag (PyVal.str "True")) = true →
      get_suffix gitOut tag = pyStrip (gitOut "git describe --always --tag")) ∧
    ((pyEq tag (PyVal.bool true) || pyEq tag (PyVal.str "True")) = false →
      get_suffix gitOut tag = pyStrip (gitOut "git rev-parse HEAD")) := by
  constructor <;> intro h <;> simp [get_suffix, suffix_cmd, h]

/-- C4 witness: the amended claim evaluated at `tag = True`. -/
theorem get_suffix_spec_witness :
    get_suffix gitOutEx (PyVal.bool true) =
      pyStrip (gitOutEx "git describe --always --tag") :=
  (get_suffix_spec gitOutEx (PyVal.bool true)).1 rfl

/-- C5: whatever the inner action does — succeed, fail, or never run
because a copy failed — the `_dist_wrapper` cleanup runs afterwards, so
the temporary `README.txt` and `HISTORY.txt` are absent from the final
filesystem; the `rm -f` model is total, so a missing file is tolerated. -/
theorem distWrapper_cleans {ε : Type}
    (action : (String → Bool) → (String → Bool) × Option ε) (fs : String → Bool) :
    (distWrapper action fs).2 "README.txt" = false ∧
    (distWrapper action fs).2 "HISTORY.txt" = false := by
  simp only [distWrapper]
  constructor
  · split
    · exact cleanupTxt_readme (cpAll fs).1
    · split <;> exact cleanupTxt_readme (action (cpAll fs).1).1
  · split
    · exact cleanupTxt_history (cpAll fs).1
    · split <;> exact cleanupTxt_history (action (cpAll fs).1).1

/-- C6: `api_op` returns the JSON decoding of the response body when that
body is non-empty, and an empty mapping when the body is empty. -/
theorem api_op_decodes (loads : String → Json) (transport : HttpReq → String)
    (user password : Option String) (path method : String)
    (headers : List (String × String)) (data : Option String) :
    (transport (api_op loads transport user password path method headers data).1 ≠ "" →
      (api_op loads transport user password path method headers data).2 =
        loads (transport (api_op loads transport user password path method headers data).1)) ∧
    (transport (api_op loads transport user password path method headers data).1 = "" →
      (api_op loads transport user password path method headers data).2 = Json.obj []) :=
  ⟨fun h => if_neg h, fun h => if_pos h⟩

/-- C6 witness: with a transport whose response body is empty, `api_op`
returns the empty mapping. -/
theorem api_op_decodes_witness :
    (api_op loadsEx transportEx none none "repos/x" "GET" [] none).2 = Json.obj [] :=
  (api_op_decodes loadsEx transportEx none none "repos/x" "GET" [] none).2 rfl

/-- C7: `config(key)` queries `git config github.<key>` and returns the
stripped value when it is non-empty, and `None` when it is empty. -/
theorem config_spec (runner : String → String) (key : String) :
    (pyStrip (runner ("git config github." ++ key)) ≠ "" →
      config runner key = some (pyStrip (runner ("git config github." ++ key)))) ∧
    (pyStrip (runner ("git config github." ++ key)) = "" →
      config runner key = none) :=
  ⟨fun h => if_neg h, fun h => if_pos h⟩

/-- C7 witness: a runner answering ` bob\n` yields the stripped value. -/
theorem config_spec_witness :
    config runnerEx "user" = some (pyStrip (runnerEx "git config github.user")) :=
  (config_spec runnerEx "user").1 (by decide)

/-- C8: `downloads_put` with no description sends the create request with
the default description `Pre-packaged sphinx theme for {suffix}.`, which
contains the given suffix. -/
theorem downloads_put_default_desc (user : Option String) (fileSize : String → Nat)
    (createResp : PutRequest → String → Option Json) (file_name suffix : String) :
    (downloads_put user fileSize createResp file_name suffix none).1 =
      [Ev.httpPost (downloads_path user) (basename file_name) (fileSize file_name)
        ("Pre-packaged sphinx theme for " ++ suffix ++ "."),
       Ev.s3Upload file_name] ∧
    ∃ a b, "Pre-packaged sphinx theme for " ++ suffix ++ "." = a ++ suffix ++ b :=
  ⟨rfl, "Pre-packaged sphinx theme for ", ".", rfl⟩

/-- C9: the metadata returned by `downloads_put` is the decoded create
response with the single key `file_path` bound to the uploaded file name;
every other key keeps the value the API response gave it. -/
theorem downloads_put_meta_frame (user : Option String) (fileSize : String → Nat)
    (createResp : PutRequest → String → Option Json)
    (file_name suffix : String) (desc : Option String) :
    (downloads_put user fileSize createResp file_name suffix desc).2 "file_path" =
      some (Json.str file_name) ∧
    ∀ k, k ≠ "file_path" →
      (downloads_put user fileSize createResp file_name suffix desc).2 k =
        createResp (put_request user fileSize file_name suffix desc) k := by
  refine ⟨?_, fun k hk => ?_⟩
  · simp [downloads_put, dictUpdate]
  · simp [downloads_put, dictUpdate, hk]

/-- C9 witness: the frame condition evaluated at the key `id` of a sample
create response. -/
theorem downloads_put_meta_frame_witness :
    (downloads_put none (fun _ => 3) respEx "build/bootstrap.zip" "abc" none).2 "file_path" =
      some (Json.str "build/bootstrap.zip") ∧
    (downloads_put none (fun _ => 3) respEx "build/bootstrap.zip" "abc" none).2 "id" =
      respEx (put_request none (fun _ => 3) "build/bootstrap.zip" "abc" none) "id" :=
  ⟨(downloads_put_meta_frame none (fun _ => 3) respEx "build/bootstrap.zip" "abc" none).1,
   (downloads_put_meta_frame none (fun _ => 3) respEx "build/bootstrap.zip" "abc"
      none).2 "id" (by decide)⟩

/-- C10: every request assembled by `api_op` carries an `Authorization`
header whose value is the Basic encoding of the string rendering of the
configured user and password — also when both are absent, in which case
the rendering is the literal `None` (so `api_op` never refuses to send
for missing credentials; it is a total function). -/
theorem api_op_auth_total (loads : String → Json) (transport : HttpReq → String)
    (user password : Option String) (path method : String)
    (headers : List (String × String)) (data : Option String) :
    (api_op loads transport user password path method headers data).1.headers =
      headers ++ [("Authorization",
        "Basic " ++ encodestringTrim (pyStrOpt user ++ ":" ++ pyStrOpt password))] ∧
    pyStrOpt none = "None" :=
  ⟨rfl, rfl⟩

/-- C1: when the fetched remote download list contains a record named like
the suffixed zip file, `gh_upload` only runs the suffix query, the three
config reads and the list fetch, reports the file as already present, and
returns: zero delete calls and zero upload calls. -/
theorem gh_upload_skips_when_suffixed_present (env : Env) (tag : PyVal)
    (hbase : env.fsExists "build/bootstrap.zip" = true)
    (hsfx : env.fsExists ("build/bootstrap-" ++ get_suffix env.gitOut tag ++ ".zip") = true)
    (hmem : ∃ d ∈ env.remote,
      d.name = basename ("build/bootstrap-" ++ get_suffix env.gitOut tag ++ ".zip")) :
    gh_upload env tag =
      [Ev.shell (suffix_cmd tag), Ev.shell "git config github.user",
       Ev.shell "git config github.password", Ev.shell "git config github.token",
       Ev.httpGet (downloads_path (config env.gitOut "user")),
       Ev.msg "Found suffixed zip file already. Skipping"] ∧
    deleteCalls (gh_upload env tag) = [] ∧
    uploadFiles (gh_upload env tag) = [] := by
  have hsome := dlLookup_isSome _ _ hmem
  have htr : gh_upload env tag =
      [Ev.shell (suffix_cmd tag), Ev.shell "git config github.user",
       Ev.shell "git config github.password", Ev.shell "git config github.token",
       Ev.httpGet (downloads_path (config env.gitOut "user")),
       Ev.msg "Found suffixed zip file already. Skipping"] := by
    simp [gh_upload, hbase, hsfx, hsome]
  exact ⟨htr, by rw [htr]; rfl, by rw [htr]; rfl⟩

/-- C1 witness: a world whose remote list already holds the suffixed zip. -/
theorem gh_upload_skips_witness :
    deleteCalls (gh_upload envC1 (PyVal.bool false)) = [] ∧
    uploadFiles (gh_upload envC1 (PyVal.bool false)) = [] :=
  (gh_upload_skips_when_suffixed_present envC1 (PyVal.bool false) rfl rfl (by decide)).2

/-- C2: when the fetched remote list holds a record named `bootstrap.zip`
but none named like the suffixed zip, `gh_upload` issues exactly one
delete — for the record the dictionary holds under `bootstrap.zip` — and
then exactly two uploads, the base zip first and the suffixed zip second;
the net-operation trace is precisely list, delete, create+upload (base),
create+upload (suffixed). -/
theorem gh_upload_replaces_base (env : Env) (tag : PyVal)
    (hbase : env.fsExists "build/bootstrap.zip" = true)
    (hsfx : env.fsExists ("build/bootstrap-" ++ get_suffix env.gitOut tag ++ ".zip") = true)
    (hb : ∃ d ∈ env.remote, d.name = "bootstrap.zip")
    (hns : ∀ d ∈ env.remote,
      d.name ≠ basename ("build/bootstrap-" ++ get_suffix env.gitOut tag ++ ".zip")) :
    ∃ e ∈ env.remote, e.name = "bootstrap.zip" ∧
      deleteCalls (gh_upload env tag) =
        [downloads_path (config env.gitOut "user") ++ "/" ++ e.id] ∧
      uploadFiles (gh_upload env tag) =
        ["build/bootstrap.zip",
         "build/bootstrap-" ++ get_suffix env.gitOut tag ++ ".zip"] ∧
      netOps (gh_upload env tag) =
        [Ev.httpGet (downloads_path (config env.gitOut "user")),
         Ev.httpDelete (downloads_path (config env.gitOut "user") ++ "/" ++ e.id),
         Ev.httpPost (downloads_path (config env.gitOut "user")) "bootstrap.zip"
           (env.fileSize "build/bootstrap.zip")
           ("Pre-packaged sphinx theme for " ++ get_suffix env.gitOut tag ++ "."),
         Ev.s3Upload "build/bootstrap.zip",
         Ev.httpPost (downloads_path (config env.gitOut "user"))
           (basename ("build/bootstrap-" ++ get_suffix env.gitOut tag ++ ".zip"))
           (env.fileSize ("build/bootstrap-" ++ get_suffix env.gitOut tag ++ ".zip"))
           ("Pre-packaged sphinx theme for " ++ get_suffix env.gitOut tag ++ "."),
         Ev.s3Upload ("build/bootstrap-" ++ get_suffix env.gitOut tag ++ ".zip")] := by
  obtain ⟨e, he, hen, heq⟩ := dlLookup_find _ _ hb
  have hnone := dlLookup_none _ _ hns
  refine ⟨e, he, hen, ?_, ?_, ?_⟩ <;>
    simp [gh_upload, hbase, hsfx, hnone, basename_base, heq, deleteCalls, uploadFiles,
      netOps, isNet, downloads_put, put_request]

/-- C2 witness: a world whose remote list holds only the base zip. -/
theorem gh_upload_replaces_base_witness :
    deleteCalls (gh_upload envC2 (PyVal.bool false)) =
      [downloads_path (config envC2.gitOut "user") ++ "/" ++ "5"] ∧
    uploadFiles (gh_upload envC2 (PyVal.bool false)) =
      ["build/bootstrap.zip",
       "build/bootstrap-" ++ get_suffix envC2.gitOut (PyVal.bool false) ++ ".zip"] := by
  obtain ⟨e, he, hen, hdel, hup, hnet⟩ :=
    gh_upload_replaces_base envC2 (PyVal.bool false) rfl rfl (by decide) (by decide)
  have hee : e = ⟨"bootstrap.zip", "5"⟩ := by simpa [envC2] using he
  subst hee
  exact ⟨hdel, hup⟩

/-- C3: when a local zip file is missing, `gh_upload` aborts with the
user-facing message right after the suffix query: the whole trace is the
shell call and the abort, and contains no HTTP/network operation at all. -/
theorem gh_upload_aborts_without_local (env : Env) (tag : PyVal)
    (h : env.fsExists "build/bootstrap.zip" = false ∨
      env.fsExists ("build/bootstrap-" ++ get_suffix env.gitOut tag ++ ".zip") = false) :
    gh_upload env tag = [Ev.shell (suffix_cmd tag),
      Ev.abort "Did not find current zip files. Please create."] ∧
    netOps (gh_upload env tag) = [] := by
  have hcond : (env.fsExists "build/bootstrap.zip" &&
      env.fsExists ("build/bootstrap-" ++ get_suffix env.gitOut tag ++ ".zip")) = false := by
    rcases h with h | h <;> simp [h]
  have htr : gh_upload env tag = [Ev.shell (suffix_cmd tag),
      Ev.abort "Did not find current zip files. Please create."] := by
    simp [gh_upload, hcond]
  exact ⟨htr, by rw [htr]; rfl⟩

/-- C3 witness: a world with no local files at all. -/
theorem gh_upload_aborts_witness :
    gh_upload envC3 (PyVal.bool true) = [Ev.shell (suffix_cmd (PyVal.bool true)),
      Ev.abort "Did not find current zip files. Please create."] ∧
    netOps (gh_upload envC3 (PyVal.bool true)) = [] :=
  gh_upload_aborts_without_local envC3 (PyVal.bool true) (Or.inl rfl)

end Fab
